import Mathlib

/-!
Shallow embedding of the per-flow serialization and trace-tracking core of
pcap-sidecar (src/pcap-cli/internal/transformer/flow_mutex.go), together with
proofs about its lock/unlock protocol, its range lookup, its request/response
accounting and its teardown. Machine integers are modelled as Nat (the uint32
and uint64 values) and Int (the signed atomic activeRequests counter and the
wait-group counter); the concurrent hash maps are association lists; the
skipmap is an association list whose order is the ascending-key Range order.
Logging and the goroutines that only log are elided throughout.
-/

namespace PcapFlowMutex

/-- Trace context carried by HTTP messages (translator_worker.go:52-55);
pointer indirections are elided, streamID is the uint32 value as a Nat. -/
structure traceAndSpan where
  traceID : String
  spanID : String
  streamID : Nat
deriving DecidableEq

/-- HTTP request metadata registered under a traceID (translator_worker.go:47-50);
the timestamp is elided. -/
structure httpRequest where
  url : String
  method : String
deriving DecidableEq

/-- Traced-flow record (flow_mutex.go:81-88). isActive models the atomic.Bool;
unblockerPending models whether the one-shot unblocker timer is still pending,
which is what time.Timer.Stop reports when it is called. The carrier
back-reference, serial and flowID fields are not needed by any claim. -/
structure TracedFlow where
  ts : traceAndSpan
  isActive : Bool
  unblockerPending : Bool
deriving DecidableEq

/-- Carrier of the per-flow lock state (flow_mutex.go:68-79), restricted to the
fields the claims are about: the signed atomic activeRequests counter, the
wait-group counter, the released flag and the isHTTP2 bit. The mutex and the
timestamps are modelled where a claim needs them. -/
structure flowLockCarrier where
  activeRequests : Int
  wgCounter : Int
  released : Bool
  isHTTP2 : Bool
deriving DecidableEq

/-- Inner sequence-to-TracedFlow map: the skipmap.Uint32Map of flow_mutex.go:90
as an association list whose list order is the Range traversal order, i.e.
ascending keys in every well-formed instance. -/
abbrev STTFM := List (Nat × TracedFlow)

/-- Stream-to-inner-map level of the index (flow_mutex.go:91). -/
abbrev STSM := List (Nat × STTFM)

/-- Flow-to-stream-to-sequence level of the index (flow_mutex.go:92). -/
abbrev FTSTSM := List (Nat × STSM)

/-- Modelled from the spec: TCP FIN bit, least significant bit of the flag
byte per spec section 6; the Go constant tcpFin used by flow_mutex.go is
defined in a repository file that is not among the provided sources. -/
def tcpFin : Nat := 1

/-- Modelled from the spec: TCP SYN bit per spec section 6; the Go constant
tcpSyn is defined outside the provided sources. -/
def tcpSyn : Nat := 2

/-- Modelled from the spec: TCP RST bit per spec section 6; the Go constant
tcpRst is defined outside the provided sources. -/
def tcpRst : Nat := 4

/-- Modelled from the spec: TCP PSH bit per spec section 6. -/
def tcpPsh : Nat := 8

/-- Modelled from the spec: TCP ACK bit per spec section 6. -/
def tcpAck : Nat := 16

/-- Modelled from the spec: the connection-termination predicate of spec
section 6, `(flags & (FIN | RST)) != 0`; the Go function
isConnectionTermination called at flow_mutex.go:449 and flow_mutex.go:534 is
defined in a repository file that is not among the provided sources. -/
def isConnectionTermination (flags : Nat) : Bool :=
  flags &&& (tcpFin ||| tcpRst) != 0

/-- Tracking deadline of flow_mutex.go:97, in seconds. -/
def trackingDeadline : Nat := 10

/-- Carrier deadline of flow_mutex.go:96, in seconds. -/
def carrierDeadline : Nat := 600

/-- Delay after which the unblocker installed by trackConnection fires:
time.AfterFunc(trackingDeadline, ...) at flow_mutex.go:305. -/
def unblockerFireDelay : Nat := trackingDeadline

/-- First-non-none choice on options, used to express the nil fallback of
flow_mutex.go:242-244. -/
def oor {α : Type} : Option α → Option α → Option α
  | some x, _ => some x
  | none, y => y

/-- Last element of a list: the last entry visited by an in-order Range. -/
def lastEntry {α : Type} : List α → Option α
  | [] => none
  | [x] => some x
  | _ :: y :: t => lastEntry (y :: t)

/-- Fold of the skipmap Range loop of getTracedFlow (flow_mutex.go:224-236):
the first component remembers the last entry whose key is below ref, the
second component remembers the last entry visited overall. -/
def rangeScan (ref : Nat) (entries : STTFM) : Option TracedFlow × Option TracedFlow :=
  entries.foldl (fun acc e => (if ref > e.1 then some e.2 else acc.1, some e.2)) (none, none)

/-- Range lookup getTracedFlow (flow_mutex.go:202-250) with the returned
provider already applied to a stream id: ref is seq, or ack when local
(lines 207-210); a missing flow id yields the constant not-found provider of
line 216, a missing stream id the not-found result of line 248; otherwise the
scan result with the nil fallback of lines 242-244, always paired with true. -/
def getTracedFlow (m : FTSTSM) (fid seq ack : Nat) (isLocal : Bool) (stream : Nat) :
    Option TracedFlow × Bool :=
  let ref := if isLocal then ack else seq
  match m.lookup fid with
  | none => (none, false)
  | some stsm =>
    match stsm.lookup stream with
    | none => (none, false)
    | some entries =>
      let scan := rangeScan ref entries
      (oor scan.1 scan.2, true)

/-- Creation part of trackConnection (flow_mutex.go:280-303, 348): a nil ts
fails (lines 290-292); otherwise a fresh TracedFlow is built with isActive
stored true (line 303) and its one-shot unblocker scheduled, hence pending
(line 305). The installation into the three-level index (lines 326-346) and
the logging are not needed by the claims about the counters. -/
def trackConnection (ts : Option traceAndSpan) : Option TracedFlow :=
  ts.map fun t => { ts := t, isActive := true, unblockerPending := true }

/-- Request branch body of UnlockWithTraceAndSpan (flow_mutex.go:593-614) for
one stream whose ts is present in requestTS: on successful tracking the
activeRequests counter is incremented (line 599); when the new value is
positive one wg token is added (line 601); otherwise the fresh flow's
unblocker is cancelled through the CAS of line 606 and Stop of line 610.
Returns (activeRequests, wgCounter, the tracked flow after the branch,
whether wg.Add ran). -/
def requestUnlock (ar wg : Int) (ts : Option traceAndSpan) :
    Int × Int × Option TracedFlow × Bool :=
  match trackConnection ts with
  | none => (ar, wg, none, false)
  | some tf =>
    let ar2 := ar + 1
    if 0 < ar2 then (ar2, wg + 1, some tf, true)
    else if tf.isActive then
      (ar2, wg, some { tf with isActive := false, unblockerPending := false }, false)
    else (ar2, wg, some tf, false)

/-- Response branch body of UnlockWithTraceAndSpan (flow_mutex.go:621-637) for
one stream whose ts is present in responseTS; found is the result of the
tracedFlowProvider call of line 623. When a TracedFlow is found the
activeRequests counter is decremented at once (line 624); the chain of
line 625-628 is then evaluated left to right with Go short-circuiting: the
CAS on isActive runs only when the decremented counter is non-negative and
the trace ids match, Stop runs only when that CAS wins, and wg.Done runs only
when Stop reports the timer was still pending. Returns (activeRequests,
wgCounter, the traced flow after the branch, whether wg.Done ran). -/
def responseUnlock (ar wg : Int) (found : Option TracedFlow) (ts : traceAndSpan) :
    Int × Int × Option TracedFlow × Bool :=
  match found with
  | none => (ar, wg, none, false)
  | some tf =>
    let ar2 := ar - 1
    if 0 ≤ ar2 ∧ tf.ts.traceID = ts.traceID then
      if tf.isActive then
        if tf.unblockerPending then
          (ar2, wg - 1, some { tf with isActive := false, unblockerPending := false }, true)
        else (ar2, wg, some { tf with isActive := false }, false)
      else (ar2, wg, some tf, false)
    else (ar2, wg, some tf, false)

/-- Unblocker callback installed by trackConnection (flow_mutex.go:305-324):
it fires unblockerFireDelay after creation; the CAS of line 307 gates
everything, the activeRequests counter is then decremented (line 318) and
wg.Done runs exactly when the decremented value is non-negative (lines
318-319). Firing consumes the one-shot timer, so the pending bit clears in
every case. Returns (the flow after firing, activeRequests, wgCounter,
whether wg.Done ran). -/
def unblockerFire (tf : TracedFlow) (ar wg : Int) : TracedFlow × Int × Int × Bool :=
  let tf2 := { tf with unblockerPending := false }
  if tf.isActive then
    let ar2 := ar - 1
    if 0 ≤ ar2 then ({ tf2 with isActive := false }, ar2, wg - 1, true)
    else ({ tf2 with isActive := false }, ar2, wg, false)
  else (tf2, ar, wg, false)

/-- UnlockAndReleaseFN (flow_mutex.go:502-528) restricted to the carrier
bookkeeping: the CAS on released at line 508 is attempted only when the
activeRequests load at line 507 returns 0 (Go short-circuit); the winner is
also the only caller that schedules untrackConnection (lines 511-522); the
deferred helper of line 503 releases the mutex on every path. Returns
(carrier after, released winner, untrack scheduled, mutex released). -/
def UnlockAndReleaseFN (c : flowLockCarrier) : flowLockCarrier × Bool × Bool × Bool :=
  if c.activeRequests = 0 ∧ c.released = false then
    ({ c with released := true }, true, true, true)
  else (c, false, false, true)

/-- UnlockWithTCPFlagsFN (flow_mutex.go:530-540): termination flags delegate
to UnlockAndReleaseFN, anything else only releases the mutex through the
deferred helper. -/
def UnlockWithTCPFlagsFN (flags : Nat) (c : flowLockCarrier) :
    flowLockCarrier × Bool × Bool × Bool :=
  if isConnectionTermination flags then UnlockAndReleaseFN c
  else (c, false, false, true)

/-- Serialized run of UnlockAndReleaseFN invocations on one carrier: every
invocation happens under the carrier mutex, and each element of the list is
the activeRequests value the carrier holds when that invocation runs (the
counter is mutated between critical sections by the tracking paths). Returns
the carrier after all invocations and how many of them won the release CAS. -/
def runUnlockAndReleases (c : flowLockCarrier) : List Int → flowLockCarrier × Nat
  | [] => (c, 0)
  | ar :: rest =>
    let step := UnlockAndReleaseFN { c with activeRequests := ar }
    let next := runUnlockAndReleases step.1 rest
    (next.1, (if step.2.1 then 1 else 0) + next.2)

/-- State of one lock call at the wait-group gate of flow_mutex.go:449-480:
waiting is true while the call is blocked inside wg.Wait (line 474), wg is
the carrier wait-group counter, ctxDone records whether ctx.Done has fired. -/
structure gateState where
  waiting : Bool
  wg : Nat
  ctxDone : Bool
deriving DecidableEq

/-- External events a blocked termination lock call can observe: a context
cancellation, or one wg.Done from a matched response, a fired unblocker or
the untrack drain. -/
inductive gateEvent where
  | cancel : gateEvent
  | release : gateEvent
deriving DecidableEq

/-- Entry of a termination lock call into the gate: the select of
flow_mutex.go:470-475 polls ctx.Done exactly once, with a default branch; if
the context is already done the wait is skipped, otherwise wg.Wait is entered
and blocks unless the counter is already zero. -/
def gateEnter (ctxDone : Bool) (wg : Nat) : gateState :=
  if ctxDone then { waiting := false, wg := wg, ctxDone := true }
  else { waiting := decide (wg ≠ 0), wg := wg, ctxDone := false }

/-- Effect of one event on the gate state under the code of
flow_mutex.go:470-475: wg.Done decrements the counter and wakes the waiter
exactly when the counter reaches zero; a cancellation only sets the context
flag, because a goroutine blocked inside wg.Wait is not watching the context
(the select already committed to its default branch). -/
def gateStep (s : gateState) (e : gateEvent) : gateState :=
  match e with
  | .cancel => { s with ctxDone := true }
  | .release =>
    let wg2 := s.wg - 1
    { s with wg := wg2, waiting := s.waiting && decide (wg2 ≠ 0) }

/-- Run of the gate over a sequence of events. -/
def gateRun (s : gateState) (evs : List gateEvent) : gateState :=
  evs.foldl gateStep s

/-- Modelled from the spec: spec section 5 states that wg.wait is wrapped so
that cancellation short-circuits the wait; under that reading a cancellation
unblocks the waiter at any point, which is what this step relation does. It
exists only to be compared with gateStep, the step relation of the code. -/
def specCancellationGateStep (s : gateState) (e : gateEvent) : gateState :=
  match e with
  | .cancel => { s with ctxDone := true, waiting := false }
  | .release => gateStep s e

/-- Run of the spec-worded gate over a sequence of events. -/
def specCancellationGateRun (s : gateState) (evs : List gateEvent) : gateState :=
  evs.foldl specCancellationGateStep s

/-- Gate entered by lock (flow_mutex.go:449): only connection-termination
flags wait on the carrier wait-group; every other lock call proceeds with no
wait at all. -/
def lockGateEnter (flags : Nat) (ctxDone : Bool) (wg : Nat) : gateState :=
  if isConnectionTermination flags then gateEnter ctxDone wg
  else { waiting := false, wg := wg, ctxDone := ctxDone }

/-- CAS-and-stop applied by untrackConnection to every indexed TracedFlow
(flow_mutex.go:373-375): the CAS true to false stops the unblocker exactly
when it wins. -/
def casDeactivate (tf : TracedFlow) : TracedFlow :=
  if tf.isActive then { tf with isActive := false, unblockerPending := false } else tf

/-- Flows stored under one flow id, in iteration order of the walk of
flow_mutex.go:366-390 (streams in map order, inner entries in Range order). -/
def indexedFlows (m : FTSTSM) (flowID : Nat) : List TracedFlow :=
  match m.lookup flowID with
  | none => []
  | some stsm => (stsm.flatMap fun s => s.2).map fun e => e.2

/-- Trace ids stored under one flow id, the keys deleted from the registry by
flow_mutex.go:378. -/
def indexedTraceIDs (m : FTSTSM) (flowID : Nat) : List String :=
  (indexedFlows m flowID).map fun tf => tf.ts.traceID

/-- Shared mutable state of the flowMutex engine (flow_mutex.go:53-58): the
three-level index, the trace-id registry, and the key set of the carrier map
(the carrier values themselves are modelled separately per claim). -/
structure flowMutexState where
  flowToStreamToSequenceMap : FTSTSM
  traceToHttpRequestMap : List (String × httpRequest)
  mutexMapKeys : List Nat
deriving DecidableEq

/-- Iterations of the drain loop of untrackConnection (flow_mutex.go:399-402):
while the activeRequests counter is positive, decrement it and call wg.Done,
once per iteration. The loop body strictly decreases the counter, so the loop
performs exactly ar.toNat iterations; fuel makes the recursion structural. -/
def drainGo (fuel : Nat) (ar wg : Int) (done : Nat) : Int × Int × Nat :=
  match fuel with
  | 0 => (ar, wg, done)
  | f + 1 => if 0 < ar then drainGo f (ar - 1) (wg - 1) (done + 1) else (ar, wg, done)

/-- Drain loop of untrackConnection (flow_mutex.go:399-402). Returns the
final counter, the final wait-group counter and the number of wg.Done calls. -/
def drainActiveRequests (ar wg : Int) (done : Nat) : Int × Int × Nat :=
  drainGo ar.toNat ar wg done

/-- untrackConnection (flow_mutex.go:351-405): every TracedFlow indexed under
the flow id goes through the CAS-and-stop of lines 373-375, every indexed
trace id is deleted from the registry (line 378), the inner entries, the
streams and the flow id itself are deleted from the index (lines 384-396),
the drain loop of lines 399-402 runs on the carrier, and the flow id is
deleted from the carrier map (line 404). The recover wrapper and the logging
are elided. Returns (engine state after, carrier after, the processed flows,
number of wg.Done calls made by the drain loop). -/
def untrackConnection (st : flowMutexState) (flowID : Nat) (c : flowLockCarrier) :
    flowMutexState × flowLockCarrier × List TracedFlow × Nat :=
  let flows := indexedFlows st.flowToStreamToSequenceMap flowID
  let tids := indexedTraceIDs st.flowToStreamToSequenceMap flowID
  let processed := flows.map casDeactivate
  let d := drainActiveRequests c.activeRequests c.wgCounter 0
  ({ flowToStreamToSequenceMap :=
       st.flowToStreamToSequenceMap.filter fun p => decide (p.1 ≠ flowID),
     traceToHttpRequestMap :=
       st.traceToHttpRequestMap.filter fun p => decide (p.1 ∉ tids),
     mutexMapKeys := st.mutexMapKeys.filter fun k => decide (k ≠ flowID) },
   { c with activeRequests := d.1, wgCounter := d.2.1 },
   processed, d.2.2)

/-- Guard of flow_mutex.go:563: the tracking UnlockWithTraceAndSpan closure is
installed only when the original segment flags have none of SYN, FIN, RST. -/
def installsTrackedUnlock (flags : Nat) : Bool :=
  flags &&& (tcpSyn ||| tcpFin ||| tcpRst) == 0

/-- Degenerate UnlockWithTraceAndSpan closure of flow_mutex.go:643-659,
installed when the original flags intersect SYN, FIN or RST: every stream and
trace argument is ignored (the underscore parameters of lines 649-653), no
tracking state is touched, the call falls through to UnlockWithTCPFlagsFN
with its flags argument (line 656), and the activeRequests value returned is
the one recorded when lock built the closure (line 644). Returns (index
after, UnlockWithTCPFlagsFN result, returned activeRequests value). -/
def degenerateUnlockWithTraceAndSpan (recorded : Int) (index : FTSTSM)
    (c : flowLockCarrier) (flags : Nat) (_isHTTP2 : Bool)
    (_requestStreams _responseStreams : List Nat)
    (_requestTS _responseTS : List (Nat × traceAndSpan)) :
    FTSTSM × (flowLockCarrier × Bool × Bool × Bool) × Int :=
  (index, UnlockWithTCPFlagsFN flags c, recorded)

/-- Primitive observable actions of an unlock variant. -/
inductive unlockAction where
  | setLastUnlocked : unlockAction
  | releaseMutex : unlockAction
  | bodyWork : unlockAction
deriving DecidableEq

/-- Action trace of the shared helper of flow_mutex.go:490-500: its body
records lastUnlockedAt, its deferred mu.Unlock releases the mutex, and its
outermost deferred recover guards that release. -/
def unlockHelperActions : List unlockAction :=
  [unlockAction.setLastUnlocked, unlockAction.releaseMutex]

/-- Defer semantics of Go applied to one unlock variant: a function that
deferred deferredActs at entry still executes them when its body panics,
while the body's own actions are skipped from the panic on (the bodies here
are single blocks, so a panicking body contributes nothing). -/
def runWithDeferred (deferredActs bodyActs : List unlockAction) (bodyPanics : Bool) :
    List unlockAction :=
  (if bodyPanics then [] else bodyActs) ++ deferredActs

/-- Actions of UnlockAndReleaseFN, which defers the shared helper at
flow_mutex.go:503 before running its body. -/
def unlockAndReleaseActions (bodyPanics : Bool) : List unlockAction :=
  runWithDeferred unlockHelperActions [unlockAction.bodyWork] bodyPanics

/-- Actions of UnlockWithTCPFlagsFN (flow_mutex.go:530-540): termination
flags delegate to UnlockAndReleaseFN, otherwise the helper is deferred at
line 537 around the variant's own body. -/
def unlockWithTCPFlagsActions (term bodyPanics : Bool) : List unlockAction :=
  if term then unlockAndReleaseActions bodyPanics
  else runWithDeferred unlockHelperActions [unlockAction.bodyWork] bodyPanics

/-- Actions of UnlockFn (flow_mutex.go:544-546), the alias that forwards the
original flags to UnlockWithTCPFlagsFN. -/
def unlockActions (term bodyPanics : Bool) : List unlockAction :=
  unlockWithTCPFlagsActions term bodyPanics

/-- Actions of the tracking UnlockWithTraceAndSpan closure
(flow_mutex.go:577-642): the tracking loops run first and the delegation to
UnlockWithTCPFlagsFN at line 640 is a plain call, not a deferred one, so a
panic inside the loops skips the helper entirely. -/
def unlockWithTraceAndSpanActions (term bodyPanics : Bool) : List unlockAction :=
  if bodyPanics then []
  else unlockAction.bodyWork :: unlockWithTCPFlagsActions term false

/-- Sample trace context of an HTTP request. -/
def tsReq : traceAndSpan := { traceID := "trace-req", spanID := "span-req", streamID := 10 }

/-- Sample trace context of an HTTP response with a different trace id. -/
def tsResp : traceAndSpan := { traceID := "trace-resp", spanID := "span-resp", streamID := 10 }

/-- Sample traced flow tracked for tsReq, still active and still pending. -/
def tfReq : TracedFlow := { ts := tsReq, isActive := true, unblockerPending := true }

/-- Traced flow stored at the low key of the wrap-around example. -/
def tfWrapLow : TracedFlow :=
  { ts := { traceID := "wrap-low", spanID := "s1", streamID := 10 },
    isActive := true, unblockerPending := true }

/-- Traced flow stored at the high key of the wrap-around example. -/
def tfWrapHigh : TracedFlow :=
  { ts := { traceID := "wrap-high", spanID := "s2", streamID := 10 },
    isActive := true, unblockerPending := true }

/-- Traced flow stored at key 100 of the monotone example. -/
def tfMono100 : TracedFlow :=
  { ts := { traceID := "mono-100", spanID := "s3", streamID := 10 },
    isActive := true, unblockerPending := true }

/-- Traced flow stored at key 200 of the monotone example. -/
def tfMono200 : TracedFlow :=
  { ts := { traceID := "mono-200", spanID := "s4", streamID := 10 },
    isActive := true, unblockerPending := true }

/-- Traced flow stored at key 300 of the monotone example. -/
def tfMono300 : TracedFlow :=
  { ts := { traceID := "mono-300", spanID := "s5", streamID := 10 },
    isActive := true, unblockerPending := true }

/-- Sample pristine carrier: no active requests, nothing released. -/
def cEx0 : flowLockCarrier :=
  { activeRequests := 0, wgCounter := 0, released := false, isHTTP2 := false }

/-- Index holding the wrap-around example of the spec: one flow, one stream,
inner keys 0x00000010 and 0xFFFFFFF0 in ascending order. -/
def exWrapMap : FTSTSM :=
  [(1, [(10, [(16, tfWrapLow), (4294967280, tfWrapHigh)])])]

/-- Index holding the monotone example of the spec: inner keys 100, 200, 300. -/
def exMonoMap : FTSTSM :=
  [(1, [(10, [(100, tfMono100), (200, tfMono200), (300, tfMono300)])])]

theorem oor_none_right {α : Type} (x : Option α) : oor x none = x := by
  cases x <;> rfl

theorem oor_assoc {α : Type} (a b c : Option α) : oor (oor a b) c = oor a (oor b c) := by
  cases a <;> rfl

theorem oor_map {α β : Type} (f : α → β) (a b : Option α) :
    (oor a b).map f = oor (a.map f) (b.map f) := by
  cases a <;> rfl

theorem lastEntry_nonempty {α : Type} (x : α) (l : List α) :
    ∃ z, lastEntry (x :: l) = some z := by
  induction l generalizing x with
  | nil => exact ⟨x, rfl⟩
  | cons y t ih => simpa [lastEntry] using ih y

theorem lastEntry_cons {α : Type} (x : α) (l : List α) :
    lastEntry (x :: l) = oor (lastEntry l) (some x) := by
  cases l with
  | nil => rfl
  | cons y t =>
    obtain ⟨z, hz⟩ := lastEntry_nonempty y t
    simp [lastEntry, hz, oor]

theorem lastEntry_mem {α : Type} :
    ∀ (l : List α) (x : α), lastEntry l = some x → x ∈ l := by
  intro l
  induction l with
  | nil => intro x h; simp [lastEntry] at h
  | cons y t ih =>
    intro x h
    cases t with
    | nil =>
      simp [lastEntry] at h
      simp [h]
    | cons z u =>
      rw [show lastEntry (y :: z :: u) = lastEntry (z :: u) from rfl] at h
      exact List.mem_cons_of_mem y (ih x h)

theorem lastEntry_max :
    ∀ (l : List (Nat × TracedFlow)), l.Pairwise (fun a b => a.1 < b.1) →
      ∀ x, lastEntry l = some x → ∀ y ∈ l, y.1 ≤ x.1 := by
  intro l
  induction l with
  | nil => intro _ x h; simp [lastEntry] at h
  | cons z t ih =>
    intro hp x h y hy
    cases t with
    | nil =>
      simp [lastEntry] at h
      simp at hy
      simp [hy, h]
    | cons w u =>
      rw [show lastEntry (z :: w :: u) = lastEntry (w :: u) from rfl] at h
      have hzall : ∀ v ∈ w :: u, z.1 < v.1 := (List.pairwise_cons.mp hp).1
      have hpt : (w :: u).Pairwise (fun a b => a.1 < b.1) := (List.pairwise_cons.mp hp).2
      rcases List.mem_cons.mp hy with hyz | hyt
      · have hxm : x ∈ w :: u := lastEntry_mem _ _ h
        have := hzall x hxm
        subst hyz
        omega
      · exact ih hpt x h y hyt

theorem lastEntry_of_max :
    ∀ (l : List (Nat × TracedFlow)), l.Pairwise (fun a b => a.1 < b.1) →
      ∀ x, x ∈ l → (∀ y ∈ l, y.1 ≤ x.1) → lastEntry l = some x := by
  intro l
  induction l with
  | nil => intro _ x hx; simp at hx
  | cons z t ih =>
    intro hp x hx hmax
    cases t with
    | nil =>
      simp at hx
      simp [lastEntry, hx]
    | cons w u =>
      have hzall : ∀ v ∈ w :: u, z.1 < v.1 := (List.pairwise_cons.mp hp).1
      have hpt : (w :: u).Pairwise (fun a b => a.1 < b.1) := (List.pairwise_cons.mp hp).2
      rcases List.mem_cons.mp hx with hxz | hxt
      · exfalso
        have hw := hzall w (List.mem_cons_self w u)
        have := hmax w (List.mem_cons_of_mem z (List.mem_cons_self w u))
        subst hxz
        omega
      · rw [show lastEntry (z :: w :: u) = lastEntry (w :: u) from rfl]
        exact ih hpt x hxt fun y hy => hmax y (List.mem_cons_of_mem z hy)

theorem rangeScan_go (ref : Nat) :
    ∀ (l : STTFM) (a b : Option TracedFlow),
      l.foldl (fun acc e => (if ref > e.1 then some e.2 else acc.1, some e.2)) (a, b)
        = (oor ((lastEntry (l.filter fun e => decide (ref > e.1))).map Prod.snd) a,
           oor ((lastEntry l).map Prod.snd) b) := by
  intro l
  induction l with
  | nil => intro a b; simp [lastEntry, oor]
  | cons e t ih =>
    intro a b
    rw [List.foldl_cons, ih, List.filter_cons]
    by_cases hcase : ref > e.1
    · rw [if_pos (decide_eq_true hcase), lastEntry_cons, lastEntry_cons, oor_map, oor_map,
        oor_assoc, oor_assoc, if_pos hcase]
      rfl
    · rw [if_neg (fun hh => hcase (of_decide_eq_true hh)), lastEntry_cons, oor_map, oor_assoc,
        if_neg hcase]
      rfl

theorem rangeScan_eq (ref : Nat) (entries : STTFM) :
    rangeScan ref entries
      = ((lastEntry (entries.filter fun e => decide (ref > e.1))).map Prod.snd,
         (lastEntry entries).map Prod.snd) := by
  rw [rangeScan, rangeScan_go, oor_none_right, oor_none_right]

theorem getTracedFlow_found (m : FTSTSM) (stsm : STSM) (entries : STTFM)
    (fid seq ack stream : Nat) (isLocal : Bool)
    (h1 : m.lookup fid = some stsm) (h2 : stsm.lookup stream = some entries) :
    getTracedFlow m fid seq ack isLocal stream
      = (oor ((lastEntry (entries.filter fun e =>
            decide ((if isLocal then ack else seq) > e.1))).map Prod.snd)
            ((lastEntry entries).map Prod.snd), true) := by
  simp only [getTracedFlow, h1, h2, rangeScan_eq]

theorem gateRun_waiting :
    ∀ (evs : List gateEvent) (s : gateState), (s.waiting = true → 0 < s.wg) →
      (gateRun s evs).waiting
        = (s.waiting && decide (List.count gateEvent.release evs < s.wg)) := by
  intro evs
  induction evs with
  | nil =>
    intro s hs
    cases hw : s.waiting with
    | false => simp [gateRun, hw]
    | true => simp [gateRun, hw, hs hw]
  | cons e evs ih =>
    intro s hs
    cases e with
    | cancel =>
      have hrun : gateRun s (gateEvent.cancel :: evs) = gateRun { s with ctxDone := true } evs := rfl
      rw [hrun, ih { s with ctxDone := true } hs]
      simp [List.count_cons]
    | release =>
      have hrun : gateRun s (gateEvent.release :: evs)
          = gateRun (gateStep s gateEvent.release) evs := rfl
      have hs2 : ((gateStep s gateEvent.release).waiting = true
          → 0 < (gateStep s gateEvent.release).wg) := by
        simp only [gateStep]
        intro hww
        rw [Bool.and_eq_true] at hww
        have h2 := of_decide_eq_true hww.2
        omega
      rw [hrun, ih _ hs2]
      have hcnt : List.count gateEvent.release (gateEvent.release :: evs)
          = List.count gateEvent.release evs + 1 := by
        simp [List.count_cons]
      simp only [gateStep]
      rw [hcnt]
      cases hw : s.waiting with
      | false => simp
      | true =>
        simp only [Bool.true_and]
        by_cases h1 : List.count gateEvent.release evs + 1 < s.wg
        · rw [decide_eq_true h1, decide_eq_true (show s.wg - 1 ≠ 0 by omega),
            decide_eq_true (show List.count gateEvent.release evs < s.wg - 1 by omega)]
          rfl
        · rw [decide_eq_false h1,
            decide_eq_false (show ¬List.count gateEvent.release evs < s.wg - 1 by omega)]
          simp

theorem drainGo_spec :
    ∀ (fuel : Nat) (ar wg : Int) (done : Nat), ar.toNat ≤ fuel →
      drainGo fuel ar wg done = (ar - ar.toNat, wg - ar.toNat, done + ar.toNat) := by
  intro fuel
  induction fuel with
  | zero =>
    intro ar wg done h
    have h0 : ar.toNat = 0 := Nat.le_zero.mp h
    simp [drainGo, h0]
  | succ f ih =>
    intro ar wg done h
    by_cases hpos : 0 < ar
    · rw [drainGo, if_pos hpos, ih (ar - 1) (wg - 1) (done + 1) (by omega)]
      simp only [Prod.mk.injEq]
      refine ⟨by omega, by omega, by omega⟩
    · rw [drainGo, if_neg hpos]
      have h0 : ar.toNat = 0 := by omega
      simp [h0]

theorem drainActiveRequests_spec (ar wg : Int) :
    drainActiveRequests ar wg 0 = (ar - ar.toNat, wg - ar.toNat, ar.toNat) := by
  have h := drainGo_spec ar.toNat ar wg 0 (Nat.le_refl _)
  simpa [drainActiveRequests] using h

theorem lookup_filter_fid (l : FTSTSM) (k : Nat) :
    (l.filter fun p => decide (p.1 ≠ k)).lookup k = none := by
  induction l with
  | nil => rfl
  | cons p rest ih =>
    obtain ⟨k1, v1⟩ := p
    rw [List.filter_cons]
    by_cases hp : k1 ≠ k
    · rw [if_pos (decide_eq_true hp)]
      have hbeq : (k == k1) = false := by
        simp only [beq_eq_false_iff_ne]
        exact fun hEq => hp hEq.symm
      simp only [List.lookup, hbeq]
      exact ih
    · rw [if_neg (fun hh => hp (of_decide_eq_true hh))]
      exact ih

theorem lookup_filter_tid (l : List (String × httpRequest)) (bad : List String)
    (t : String) (ht : t ∈ bad) :
    (l.filter fun p => decide (p.1 ∉ bad)).lookup t = none := by
  induction l with
  | nil => rfl
  | cons p rest ih =>
    obtain ⟨k1, v1⟩ := p
    rw [List.filter_cons]
    by_cases hp : k1 ∉ bad
    · rw [if_pos (decide_eq_true hp)]
      have hne : k1 ≠ t := fun hEq => hp (hEq ▸ ht)
      have hbeq : (t == k1) = false := by
        simp only [beq_eq_false_iff_ne]
        exact fun hEq => hne hEq.symm
      simp only [List.lookup, hbeq]
      exact ih
    · rw [if_neg (fun hh => hp (of_decide_eq_true hh))]
      exact ih

theorem runUnlockAndReleases_released :
    ∀ (l : List Int) (c : flowLockCarrier), c.released = true →
      (runUnlockAndReleases c l).2 = 0 := by
  intro l
  induction l with
  | nil => intro c _; rfl
  | cons ar rest ih =>
    intro c h
    rw [runUnlockAndReleases]
    have hstep : UnlockAndReleaseFN { c with activeRequests := ar }
        = ({ c with activeRequests := ar }, false, false, true) := by
      rw [UnlockAndReleaseFN, if_neg]
      simp [h]
    simp only [hstep]
    simpa using ih { c with activeRequests := ar } h

theorem runUnlockAndReleases_le_one :
    ∀ (l : List Int) (c : flowLockCarrier), (runUnlockAndReleases c l).2 ≤ 1 := by
  intro l
  induction l with
  | nil => intro c; simp [runUnlockAndReleases]
  | cons ar rest ih =>
    intro c
    rw [runUnlockAndReleases]
    by_cases hwin : ({ c with activeRequests := ar } : flowLockCarrier).activeRequests = 0
        ∧ ({ c with activeRequests := ar } : flowLockCarrier).released = false
    · have hstep : UnlockAndReleaseFN { c with activeRequests := ar }
          = ({ c with activeRequests := ar, released := true }, true, true, true) := by
        rw [UnlockAndReleaseFN, if_pos hwin]
      simp only [hstep]
      have hrest := runUnlockAndReleases_released rest
        { c with activeRequests := ar, released := true } rfl
      simp [hrest]
    · have hstep : UnlockAndReleaseFN { c with activeRequests := ar }
          = ({ c with activeRequests := ar }, false, false, true) := by
        rw [UnlockAndReleaseFN, if_neg hwin]
      simp only [hstep]
      simpa using ih { c with activeRequests := ar }

theorem UnlockWithTCPFlagsFN_preserves (flags : Nat) (c : flowLockCarrier) :
    (UnlockWithTCPFlagsFN flags c).1.activeRequests = c.activeRequests ∧
    (UnlockWithTCPFlagsFN flags c).1.wgCounter = c.wgCounter ∧
    (UnlockWithTCPFlagsFN flags c).1.isHTTP2 = c.isHTTP2 := by
  rw [UnlockWithTCPFlagsFN]
  split
  · rw [UnlockAndReleaseFN]
    split <;> simp
  · simp

theorem filter_none {α : Type} (p : α → Bool) :
    ∀ l : List α, (∀ a ∈ l, p a = false) → l.filter p = [] := by
  intro l
  induction l with
  | nil => intro _; rfl
  | cons x t ih =>
    intro h
    rw [List.filter_cons, if_neg (by simp [h x (List.mem_cons_self x t)]), ih]
    intro a ha
    exact h a (List.mem_cons_of_mem x ha)

/-- C3: the traced-flow lookup walks the inner map in ascending key order and
returns the entry at the greatest key strictly below the reference; when no
key is strictly below the reference it returns the last visited entry, which
is the entry at the greatest key overall; a missing flow id or stream id
yields not-found; and the two concrete instances of the claim, inner keys
0xFFFFFFF0 and 0x00000010 with reference 5 and inner keys 100, 200, 300 with
reference 250, evaluate to the claimed entries. -/
theorem C3_range_lookup :
    (∀ (m : FTSTSM) (fid seq ack stream : Nat) (isLocal : Bool),
        m.lookup fid = none →
        getTracedFlow m fid seq ack isLocal stream = (none, false))
  ∧ (∀ (m : FTSTSM) (stsm : STSM) (fid seq ack stream : Nat) (isLocal : Bool),
        m.lookup fid = some stsm → stsm.lookup stream = none →
        getTracedFlow m fid seq ack isLocal stream = (none, false))
  ∧ (∀ (m : FTSTSM) (stsm : STSM) (entries : STTFM) (fid seq ack stream : Nat)
        (isLocal : Bool) (x : Nat × TracedFlow),
        m.lookup fid = some stsm → stsm.lookup stream = some entries →
        entries.Pairwise (fun a b => a.1 < b.1) →
        x ∈ entries → x.1 < (if isLocal then ack else seq) →
        (∀ y ∈ entries, y.1 < (if isLocal then ack else seq) → y.1 ≤ x.1) →
        getTracedFlow m fid seq ack isLocal stream = (some x.2, true))
  ∧ (∀ (m : FTSTSM) (stsm : STSM) (entries : STTFM) (fid seq ack stream : Nat)
        (isLocal : Bool) (x : Nat × TracedFlow),
        m.lookup fid = some stsm → stsm.lookup stream = some entries →
        entries.Pairwise (fun a b => a.1 < b.1) →
        (∀ y ∈ entries, ¬y.1 < (if isLocal then ack else seq)) →
        lastEntry entries = some x →
        getTracedFlow m fid seq ack isLocal stream = (some x.2, true)
          ∧ ∀ y ∈ entries, y.1 ≤ x.1)
  ∧ getTracedFlow exWrapMap 1 5 0 false 10 = (some tfWrapHigh, true)
  ∧ getTracedFlow exMonoMap 1 250 0 false 10 = (some tfMono200, true) := by
  refine ⟨?_, ?_, ?_, ?_, by decide, by decide⟩
  · intro m fid seq ack stream isLocal h
    simp [getTracedFlow, h]
  · intro m stsm fid seq ack stream isLocal h1 h2
    simp [getTracedFlow, h1, h2]
  · intro m stsm entries fid seq ack stream isLocal x h1 h2 hp hx hlt hmax
    rw [getTracedFlow_found m stsm entries fid seq ack stream isLocal h1 h2]
    have hps : (entries.filter fun e =>
        decide ((if isLocal then ack else seq) > e.1)).Pairwise (fun a b => a.1 < b.1) :=
      hp.sublist (List.filter_sublist entries)
    have hxf : x ∈ entries.filter fun e => decide ((if isLocal then ack else seq) > e.1) :=
      List.mem_filter.mpr ⟨hx, decide_eq_true hlt⟩
    have hmaxf : ∀ y ∈ entries.filter fun e =>
        decide ((if isLocal then ack else seq) > e.1), y.1 ≤ x.1 := by
      intro y hy
      have hm := List.mem_filter.mp hy
      exact hmax y hm.1 (of_decide_eq_true hm.2)
    rw [lastEntry_of_max _ hps x hxf hmaxf]
    rfl
  · intro m stsm entries fid seq ack stream isLocal x h1 h2 hp hnone hlast
    have hfil : (entries.filter fun e =>
        decide ((if isLocal then ack else seq) > e.1)) = [] := by
      apply filter_none
      intro a ha
      exact decide_eq_false (hnone a ha)
    constructor
    · rw [getTracedFlow_found m stsm entries fid seq ack stream isLocal h1 h2, hfil, hlast]
      rfl
    · exact lastEntry_max entries hp x hlast

/-- C3 witness: the greatest-key-below branch of C3_range_lookup applied at
the monotone example, inner keys 100, 200, 300 queried with reference 250. -/
theorem C3_range_lookup_witness :
    getTracedFlow exMonoMap 1 250 0 false 10 = (some tfMono200, true) :=
  C3_range_lookup.2.2.1 exMonoMap
    [(10, [(100, tfMono100), (200, tfMono200), (300, tfMono300)])]
    [(100, tfMono100), (200, tfMono200), (300, tfMono300)]
    1 250 0 10 false (200, tfMono200)
    (by decide) (by decide) (by decide) (by decide) (by decide) (by decide)

/-- C1 counterexample: a response whose looked-up TracedFlow carries a
different trace id is not skipped by the code: activeRequests is still
decremented, because flow_mutex.go:624 runs as soon as the flow is found and
before the trace id comparison of line 626 — contradicting the claim that in
every case other than a full match nothing changes for that response. -/
theorem C1_counterexample :
    tfReq.ts.traceID ≠ tsResp.traceID
  ∧ (responseUnlock 5 3 (some tfReq) tsResp).1 = 4
  ∧ (responseUnlock 5 3 (some tfReq) tsResp).2.2.2 = false := by
  decide

/-- C1 amended: for each response stream with a present ts, a missing
TracedFlow changes nothing; a found TracedFlow always costs one
activeRequests decrement; and one wg token is released exactly when the
decremented counter is non-negative, the trace ids match, the is_active CAS
true-to-false succeeds and the unblocker cancel succeeds. -/
theorem C1_response_accounting :
    (∀ (ar wg : Int) (ts : traceAndSpan),
        responseUnlock ar wg none ts = (ar, wg, none, false))
  ∧ (∀ (ar wg : Int) (tf : TracedFlow) (ts : traceAndSpan),
        (responseUnlock ar wg (some tf) ts).1 = ar - 1)
  ∧ (∀ (ar wg : Int) (tf : TracedFlow) (ts : traceAndSpan),
        ((responseUnlock ar wg (some tf) ts).2.2.2 = true
          ↔ (0 ≤ ar - 1 ∧ tf.ts.traceID = ts.traceID
              ∧ tf.isActive = true ∧ tf.unblockerPending = true)))
  ∧ (∀ (ar wg : Int) (tf : TracedFlow) (ts : traceAndSpan),
        (responseUnlock ar wg (some tf) ts).2.2.2 = true
          → (responseUnlock ar wg (some tf) ts).2.1 = wg - 1)
  ∧ (∀ (ar wg : Int) (tf : TracedFlow) (ts : traceAndSpan),
        (responseUnlock ar wg (some tf) ts).2.2.2 = false
          → (responseUnlock ar wg (some tf) ts).2.1 = wg) := by
  refine ⟨fun ar wg ts => rfl, ?_, ?_, ?_, ?_⟩
  · intro ar wg tf ts
    simp only [responseUnlock]
    split_ifs <;> rfl
  · intro ar wg tf ts
    simp only [responseUnlock]
    split_ifs with h1 h2 h3
    · simp [h1.1, h1.2, h2, h3]
    · simp [h1.1, h1.2, h2, h3]
    · simp [h1.1, h1.2, h2]
    · simp only [Bool.false_eq_true, false_iff]
      exact fun hcontra => h1 ⟨hcontra.1, hcontra.2.1⟩
  · intro ar wg tf ts
    simp only [responseUnlock]
    split_ifs <;> simp
  · intro ar wg tf ts
    simp only [responseUnlock]
    split_ifs <;> simp

/-- C1 amended witness: a fully matching response with a non-negative
decremented counter releases exactly one wg token. -/
theorem C1_response_accounting_witness :
    (responseUnlock 1 5 (some tfReq) tsReq).2.1 = 4 :=
  C1_response_accounting.2.2.2.1 1 5 tfReq tsReq (by decide)

/-- C6: for each request stream with a present ts and successful tracking,
activeRequests is incremented by one; a positive new value adds one wg token
and leaves the fresh flow armed; a non-positive new value adds no wg token
and instead cancels the fresh flow's unblocker through the is_active CAS,
which always wins on a freshly armed flow. -/
theorem C6_request_accounting :
    (∀ (ar wg : Int) (t : traceAndSpan), (requestUnlock ar wg (some t)).1 = ar + 1)
  ∧ (∀ (ar wg : Int) (t : traceAndSpan), 0 < ar + 1 →
        requestUnlock ar wg (some t)
          = (ar + 1, wg + 1, some { ts := t, isActive := true, unblockerPending := true },
             true))
  ∧ (∀ (ar wg : Int) (t : traceAndSpan), ar + 1 ≤ 0 →
        requestUnlock ar wg (some t)
          = (ar + 1, wg, some { ts := t, isActive := false, unblockerPending := false },
             false))
  ∧ (∀ (ar wg : Int), requestUnlock ar wg none = (ar, wg, none, false)) := by
  refine ⟨?_, ?_, ?_, fun ar wg => rfl⟩
  · intro ar wg t
    simp only [requestUnlock, trackConnection, Option.map_some]
    split_ifs <;> rfl
  · intro ar wg t h
    simp [requestUnlock, trackConnection, h]
  · intro ar wg t h
    have hne : ¬0 < ar + 1 := by omega
    simp [requestUnlock, trackConnection, hne]

/-- C6 witness: C6_request_accounting applied where the counter was
over-decremented by early responses, so the new value is non-positive and the
fresh flow is deactivated instead of adding a wg token. -/
theorem C6_request_accounting_witness :
    requestUnlock (-2) 0 (some tsReq)
      = (-1, 0, some { ts := tsReq, isActive := false, unblockerPending := false }, false) :=
  C6_request_accounting.2.2.1 (-2) 0 tsReq (by decide)

/-- C2 counterexample: a termination lock call that entered wg.Wait with one
outstanding token is not unblocked by a later context cancellation — the
select of flow_mutex.go:470-475 polls the context exactly once, before the
wait begins — while the spec-worded gate unblocks on that same cancellation. -/
theorem C2_counterexample :
    (gateRun (gateEnter false 1) [gateEvent.cancel]).waiting = true
  ∧ (specCancellationGateRun (gateEnter false 1) [gateEvent.cancel]).waiting = false := by
  decide

/-- C2 amended: cancellation short-circuits the wait only when the context is
already cancelled at the moment lock reaches the select; a wait that has
begun is still waiting exactly while fewer wg tokens have been released than
were outstanding, so cancel events observed during the wait never unblock it. -/
theorem C2_cancellation_gate :
    (∀ wg : Nat, (gateEnter true wg).waiting = false)
  ∧ (∀ wg : Nat, 0 < wg → (gateEnter false wg).waiting = true)
  ∧ (∀ (s : gateState) (evs : List gateEvent), (s.waiting = true → 0 < s.wg) →
        (gateRun s evs).waiting
          = (s.waiting && decide (List.count gateEvent.release evs < s.wg))) := by
  refine ⟨?_, ?_, fun s evs h => gateRun_waiting evs s h⟩
  · intro wg
    simp [gateEnter]
  · intro wg h
    simp [gateEnter]
    omega

/-- C2 amended witness: with one outstanding token and a live context the
termination lock call does begin to wait. -/
theorem C2_cancellation_gate_witness :
    (gateEnter false 1).waiting = true :=
  C2_cancellation_gate.2.1 1 (by decide)

set_option maxRecDepth 4096 in
/-- C5: a lock call whose flags contain FIN or RST enters the wait-group
gate: entered with a live context and N outstanding tokens it can only have
stopped waiting after all N tokens were released; an already-cancelled
context skips the wait; N releases always end the wait; lock calls without
FIN or RST never wait at all; and the termination reading of the flags
agrees with the FIN and RST bits on every 8-bit flag value. -/
theorem C5_termination_gating :
    (∀ (flags : Nat) (d : Bool) (N : Nat) (evs : List gateEvent),
        isConnectionTermination flags = true → 0 < N →
        (gateRun (lockGateEnter flags d N) evs).waiting = false →
        d = true ∨ N ≤ List.count gateEvent.release evs)
  ∧ (∀ (flags : Nat) (d : Bool) (N : Nat) (evs : List gateEvent),
        N ≤ List.count gateEvent.release evs →
        (gateRun (lockGateEnter flags d N) evs).waiting = false)
  ∧ (∀ (flags : Nat) (d : Bool) (N : Nat),
        isConnectionTermination flags = false →
        (lockGateEnter flags d N).waiting = false)
  ∧ (∀ flags : Nat, flags < 256 →
        (isConnectionTermination flags = true
          ↔ (flags &&& tcpFin ≠ 0 ∨ flags &&& tcpRst ≠ 0))) := by
  refine ⟨?_, ?_, ?_, by decide⟩
  · intro flags d N evs hterm hN hdone
    cases d with
    | true => exact Or.inl rfl
    | false =>
      right
      have henter : lockGateEnter flags false N = gateEnter false N := by
        simp [lockGateEnter, hterm]
      rw [henter] at hdone
      have hwg : (gateEnter false N).wg = N := by
        simp [gateEnter]
      have hwait : (gateEnter false N).waiting = true := by
        simp [gateEnter]
        omega
      rw [gateRun_waiting evs _ (fun _ => by rw [hwg]; omega)] at hdone
      rw [hwait, hwg] at hdone
      simp only [Bool.true_and] at hdone
      have := of_decide_eq_false hdone
      omega
  · intro flags d N evs hcnt
    have hwg : (lockGateEnter flags d N).wg = N := by
      simp only [lockGateEnter, gateEnter]
      split_ifs <;> rfl
    have hinv : (lockGateEnter flags d N).waiting = true → 0 < (lockGateEnter flags d N).wg := by
      simp only [lockGateEnter, gateEnter]
      split_ifs <;> intro hw <;> simp_all
      omega
    rw [gateRun_waiting evs _ hinv, hwg]
    rw [decide_eq_false (by omega : ¬List.count gateEvent.release evs < N)]
    simp
  · intro flags d N h
    simp [lockGateEnter, h]

/-- C5 witness: a FIN plus ACK lock call with two outstanding tokens stops
waiting once two releases have been observed. -/
theorem C5_termination_gating_witness :
    (gateRun (lockGateEnter 17 false 2) [gateEvent.release, gateEvent.release]).waiting
      = false :=
  C5_termination_gating.2.1 17 false 2 [gateEvent.release, gateEvent.release] (by decide)

/-- C4: on one carrier the released flag flips false to true at most once:
across any serialized sequence of UnlockAndReleaseFN invocations at most one
returns released winner true; a winner is possible only when activeRequests
is 0 and released was still false at the CAS; exactly the winner schedules
untrack; the mutex is released on every call; and a termination-flagged
UnlockWithTCPFlagsFN call is exactly an UnlockAndReleaseFN call. -/
theorem C4_single_shot_release :
    (∀ c : flowLockCarrier, (UnlockAndReleaseFN c).2.1 = true
        → c.activeRequests = 0 ∧ c.released = false)
  ∧ (∀ c : flowLockCarrier, (UnlockAndReleaseFN c).2.2.1 = (UnlockAndReleaseFN c).2.1)
  ∧ (∀ c : flowLockCarrier, (UnlockAndReleaseFN c).2.2.2 = true)
  ∧ (∀ (c : flowLockCarrier) (ars : List Int), (runUnlockAndReleases c ars).2 ≤ 1)
  ∧ (∀ (flags : Nat) (c : flowLockCarrier), isConnectionTermination flags = true →
        UnlockWithTCPFlagsFN flags c = UnlockAndReleaseFN c) := by
  refine ⟨?_, ?_, ?_, ?_, ?_⟩
  · intro c h
    by_cases hc : c.activeRequests = 0 ∧ c.released = false
    · exact hc
    · rw [UnlockAndReleaseFN, if_neg hc] at h
      simp at h
  · intro c
    rw [UnlockAndReleaseFN]
    split_ifs <;> rfl
  · intro c
    rw [UnlockAndReleaseFN]
    split_ifs <;> rfl
  · intro c ars
    exact runUnlockAndReleases_le_one ars c
  · intro flags c h
    simp [UnlockWithTCPFlagsFN, h]

/-- C4 witness: four serialized termination unlocks, the first with an
in-flight request, produce at most one winner, and a FIN plus ACK flagged
unlock is the release path. -/
theorem C4_single_shot_release_witness :
    (runUnlockAndReleases cEx0 [1, 0, 0, 0]).2 ≤ 1
  ∧ UnlockWithTCPFlagsFN 17 cEx0 = UnlockAndReleaseFN cEx0 :=
  ⟨C4_single_shot_release.2.2.2.1 cEx0 [1, 0, 0, 0],
   C4_single_shot_release.2.2.2.2 17 cEx0 (by decide)⟩

/-- C7: the unblocker fires trackingDeadline, ten seconds, after creation; a
lost is_active CAS makes the callback a complete no-op on the counters; a won
CAS always costs one activeRequests decrement and releases one wg token
exactly when the decremented value is non-negative; a fired unblocker
releases at most one token and never releases one when the counter was
already negative. -/
theorem C7_unblocker :
    unblockerFireDelay = 10
  ∧ trackingDeadline = 10
  ∧ (∀ (tf : TracedFlow) (ar wg : Int), tf.isActive = false →
        unblockerFire tf ar wg = ({ tf with unblockerPending := false }, ar, wg, false))
  ∧ (∀ (tf : TracedFlow) (ar wg : Int), tf.isActive = true →
        (unblockerFire tf ar wg).2.1 = ar - 1)
  ∧ (∀ (tf : TracedFlow) (ar wg : Int),
        ((unblockerFire tf ar wg).2.2.2 = true ↔ (tf.isActive = true ∧ 0 ≤ ar - 1)))
  ∧ (∀ (tf : TracedFlow) (ar wg : Int), wg - 1 ≤ (unblockerFire tf ar wg).2.2.1)
  ∧ (∀ (tf : TracedFlow) (ar wg : Int), ar < 0 →
        (unblockerFire tf ar wg).2.2.2 = false) := by
  refine ⟨rfl, rfl, ?_, ?_, ?_, ?_, ?_⟩
  · intro tf ar wg h
    simp [unblockerFire, h]
  · intro tf ar wg h
    simp only [unblockerFire, h, if_true]
    split_ifs <;> rfl
  · intro tf ar wg
    simp only [unblockerFire]
    split_ifs with h1 h2
    · simp [h1, h2]
    · simp [h1, h2]
    · simp [h1]
  · intro tf ar wg
    simp only [unblockerFire]
    split_ifs <;> dsimp only <;> omega
  · intro tf ar wg h
    simp only [unblockerFire]
    split_ifs with h1 h2
    · exact absurd h2 (by omega)
    · rfl
    · rfl

/-- C7 witness: C7_unblocker applied to a flow whose CAS was already lost,
where the callback changes nothing but the consumed timer. -/
theorem C7_unblocker_witness :
    unblockerFire { ts := tsReq, isActive := false, unblockerPending := true } 3 2
      = ({ ts := tsReq, isActive := false, unblockerPending := false }, 3, 2, false) :=
  C7_unblocker.2.2.1 { ts := tsReq, isActive := false, unblockerPending := true } 3 2 rfl

/-- C8: after untrackConnection on a flow id, every processed TracedFlow is
inactive; a flow that was still active went through the winning CAS and has
its unblocker stopped; every trace id that was indexed under the flow id is
gone from the registry; the flow id is gone from the three-level index and
from the carrier map; and the carrier was drained to a non-positive counter
with exactly one wg.Done per decrement of the drain loop. -/
theorem C8_untrack_teardown :
    ∀ (st : flowMutexState) (flowID : Nat) (c : flowLockCarrier),
      (∀ tf ∈ (untrackConnection st flowID c).2.2.1, tf.isActive = false)
    ∧ (∀ tf ∈ indexedFlows st.flowToStreamToSequenceMap flowID, tf.isActive = true →
          { tf with isActive := false, unblockerPending := false }
            ∈ (untrackConnection st flowID c).2.2.1)
    ∧ (∀ tid ∈ indexedTraceIDs st.flowToStreamToSequenceMap flowID,
          (untrackConnection st flowID c).1.traceToHttpRequestMap.lookup tid = none)
    ∧ (untrackConnection st flowID c).1.flowToStreamToSequenceMap.lookup flowID = none
    ∧ flowID ∉ (untrackConnection st flowID c).1.mutexMapKeys
    ∧ (untrackConnection st flowID c).2.1.activeRequests ≤ 0
    ∧ (untrackConnection st flowID c).2.2.2 = c.activeRequests.toNat
    ∧ (untrackConnection st flowID c).2.1.activeRequests
        = c.activeRequests - (untrackConnection st flowID c).2.2.2
    ∧ (untrackConnection st flowID c).2.1.wgCounter
        = c.wgCounter - (untrackConnection st flowID c).2.2.2 := by
  intro st flowID c
  have hproc : (untrackConnection st flowID c).2.2.1
      = (indexedFlows st.flowToStreamToSequenceMap flowID).map casDeactivate := rfl
  have hdone : (untrackConnection st flowID c).2.2.2
      = (drainActiveRequests c.activeRequests c.wgCounter 0).2.2 := rfl
  have hcarAR : (untrackConnection st flowID c).2.1.activeRequests
      = (drainActiveRequests c.activeRequests c.wgCounter 0).1 := rfl
  have hcarWG : (untrackConnection st flowID c).2.1.wgCounter
      = (drainActiveRequests c.activeRequests c.wgCounter 0).2.1 := rfl
  have hd := drainActiveRequests_spec c.activeRequests c.wgCounter
  refine ⟨?_, ?_, ?_, ?_, ?_, ?_, ?_, ?_, ?_⟩
  · intro tf htf
    rw [hproc] at htf
    obtain ⟨tf0, _, rfl⟩ := List.mem_map.mp htf
    rw [casDeactivate]
    split_ifs with h
    · rfl
    · cases hb : tf0.isActive with
      | false => rfl
      | true => exact absurd hb h
  · intro tf htf hact
    rw [hproc]
    refine List.mem_map.mpr ⟨tf, htf, ?_⟩
    rw [casDeactivate, if_pos hact]
  · intro tid htid
    exact lookup_filter_tid st.traceToHttpRequestMap
      (indexedTraceIDs st.flowToStreamToSequenceMap flowID) tid htid
  · exact lookup_filter_fid st.flowToStreamToSequenceMap flowID
  · simp [untrackConnection, List.mem_filter]
  · rw [hcarAR, hd]
    dsimp only
    omega
  · rw [hdone, hd]
  · rw [hcarAR, hdone, hd]
  · rw [hcarWG, hdone, hd]

/-- C8 witness: C8_untrack_teardown applied at a concrete two-entry index,
showing the registry entry for an indexed trace id is gone after teardown. -/
theorem C8_untrack_teardown_witness :
    (untrackConnection { flowToStreamToSequenceMap := exMonoMap, traceToHttpRequestMap := [("mono-100", { url := "u", method := "GET" })], mutexMapKeys := [1, 2] } 1 cEx0).1.traceToHttpRequestMap.lookup "mono-100" = none :=
  (C8_untrack_teardown { flowToStreamToSequenceMap := exMonoMap, traceToHttpRequestMap := [("mono-100", { url := "u", method := "GET" })], mutexMapKeys := [1, 2] } 1 cEx0).2.2.1 "mono-100" (by decide)

set_option maxRecDepth 4096 in
/-- C9: when the original flags intersect SYN, FIN or RST the tracking
closure is not installed; the installed degenerate variant ignores all of
its stream and trace arguments, leaves the index untouched, performs no
counter or wait-group change of its own, returns the recorded activeRequests
value, and otherwise behaves exactly as UnlockWithTCPFlagsFN on the flags it
is given. -/
theorem C9_degenerate_variant :
    (∀ flags : Nat, (installsTrackedUnlock flags = false
        ↔ flags &&& (tcpSyn ||| tcpFin ||| tcpRst) ≠ 0))
  ∧ (∀ flags : Nat, flags < 256 →
        (flags &&& tcpSyn ≠ 0 ∨ flags &&& tcpFin ≠ 0 ∨ flags &&& tcpRst ≠ 0) →
        installsTrackedUnlock flags = false)
  ∧ (∀ (recorded : Int) (index : FTSTSM) (c : flowLockCarrier) (flags : Nat)
        (h2 h2' : Bool) (rs rs' ps ps' : List Nat)
        (rm rm' pm pm' : List (Nat × traceAndSpan)),
        degenerateUnlockWithTraceAndSpan recorded index c flags h2 rs ps rm pm
          = degenerateUnlockWithTraceAndSpan recorded index c flags h2' rs' ps' rm' pm')
  ∧ (∀ (recorded : Int) (index : FTSTSM) (c : flowLockCarrier) (flags : Nat)
        (h2 : Bool) (rs ps : List Nat) (rm pm : List (Nat × traceAndSpan)),
        (degenerateUnlockWithTraceAndSpan recorded index c flags h2 rs ps rm pm).1 = index
      ∧ (degenerateUnlockWithTraceAndSpan recorded index c flags h2 rs ps rm pm).2.2
          = recorded
      ∧ (degenerateUnlockWithTraceAndSpan recorded index c flags h2 rs ps rm pm).2.1
          = UnlockWithTCPFlagsFN flags c
      ∧ (degenerateUnlockWithTraceAndSpan recorded
            index c flags h2 rs ps rm pm).2.1.1.activeRequests = c.activeRequests
      ∧ (degenerateUnlockWithTraceAndSpan recorded
            index c flags h2 rs ps rm pm).2.1.1.wgCounter = c.wgCounter) := by
  refine ⟨?_, by decide, ?_, ?_⟩
  · intro flags
    simp [installsTrackedUnlock, beq_eq_false_iff_ne]
  · intro recorded index c flags h2 h2' rs rs' ps ps' rm rm' pm pm'
    rfl
  · intro recorded index c flags h2 rs ps rm pm
    exact ⟨rfl, rfl, rfl,
      (UnlockWithTCPFlagsFN_preserves flags c).1,
      (UnlockWithTCPFlagsFN_preserves flags c).2.1⟩

/-- C9 witness: a FIN plus ACK segment, flag byte 17, does not get the
tracking closure installed. -/
theorem C9_degenerate_variant_witness :
    installsTrackedUnlock 17 = false :=
  C9_degenerate_variant.2.1 17 (by decide) (by decide)

/-- C10 counterexample: the tracking UnlockWithTraceAndSpan closure reaches
the shared helper by a plain call at the end of its body, not by a defer, so
when its tracking loops panic the mutex is never released — while the
always-deferred UnlockAndReleaseFN still releases it exactly once on a panic. -/
theorem C10_counterexample :
    (unlockWithTraceAndSpanActions true true).count unlockAction.releaseMutex = 0
  ∧ (unlockAndReleaseActions true).count unlockAction.releaseMutex = 1 := by
  decide

/-- C10 amended: unlock, unlock with flags and unlock and release set
lastUnlockedAt and release the mutex exactly once even when their bodies
panic, because the shared helper is deferred at entry and its recover guards
the release; the tracking unlock with trace and span releases the mutex
exactly once only when its body completes, and not at all when the body
panics. -/
theorem C10_unlock_helper :
    (∀ term p : Bool, (unlockActions term p).count unlockAction.releaseMutex = 1
        ∧ unlockAction.setLastUnlocked ∈ unlockActions term p)
  ∧ (∀ term p : Bool,
        (unlockWithTCPFlagsActions term p).count unlockAction.releaseMutex = 1
        ∧ unlockAction.setLastUnlocked ∈ unlockWithTCPFlagsActions term p)
  ∧ (∀ p : Bool, (unlockAndReleaseActions p).count unlockAction.releaseMutex = 1
        ∧ unlockAction.setLastUnlocked ∈ unlockAndReleaseActions p)
  ∧ (∀ term : Bool,
        (unlockWithTraceAndSpanActions term false).count unlockAction.releaseMutex = 1)
  ∧ (∀ term : Bool,
        (unlockWithTraceAndSpanActions term true).count unlockAction.releaseMutex = 0) := by
  decide

end PcapFlowMutex
